import Mathlib

/-!
Shallow embedding of the wifi-roaming controller
(templates/kiss/tasks/optimize/optimize-wifi.py).

Python strings are modelled as Lean `String` / `List Char`; Python unbounded
ints as `Nat`/`Int`; Python floats (latency values) as `ℚ`; Python `None` as
`Option.none`; a Python runtime exception (IndexError, TypeError) as
`Except.error` with a tag naming the exception. The shell collaborators
(nmcli scan output, ping statistics) enter as explicit arguments.
-/

deriving instance DecidableEq for Except

namespace OptimizeWifi

/-- Python str.split(sep) for a one-character separator, on the character
list of the string: returns the (possibly empty) segments between
occurrences of the separator, so that an empty input gives one empty
segment, exactly as in Python. -/
def splitOnChar (sep : Char) : List Char → List (List Char)
  | [] => [[]]
  | c :: cs =>
    match splitOnChar sep cs with
    | [] => [[c]]
    | g :: gs => if c = sep then [] :: g :: gs else (c :: g) :: gs

/-- Python str.isnumeric for the ASCII output of the scan tool: nonempty and
all characters decimal digits. -/
def isnumeric (t : List Char) : Bool :=
  !t.isEmpty && t.all (·.isDigit)

/-- Python int(...) on a numeric token (decimal). -/
def charsToNat (t : List Char) : Nat :=
  t.foldl (fun n c => n * 10 + (c.toNat - Char.toNat '0')) 0

/-- The token list of one scan line: Connection.__init__ splits
('*' + info) on single spaces and keeps the non-empty items. -/
def tokenize (info : String) : List (List Char) :=
  (splitOnChar ' ' ('*' :: info.data)).filter (· ≠ [])

/-- One parsed scan record (class Connection): fields _in_use, _bssid,
_ssid, _quality, _rate, _latency. quality and rate stay None when the
line has fewer than two numeric tokens; latency is None until the entry
is probed. -/
structure Connection where
  in_use : Bool
  bssid : String
  ssid : String
  quality : Option Nat
  rate : Option Nat
  latency : Option ℚ
deriving DecidableEq, Repr

/-- The backwards scan of Connection.__init__ over the reversed token
list: the first numeric token found becomes _quality, the second becomes
_rate and the loop breaks. -/
def findQR : List (List Char) → Option Nat → Option Nat × Option Nat
  | [], q => (q, none)
  | t :: rest, q =>
    if isnumeric t then
      match q with
      | none => findQR rest (some (charsToNat t))
      | some q0 => (some q0, some (charsToNat t))
    else findQR rest q

/-- Connection.__init__: index accesses parsed[1] and parsed[2] raise
IndexError when fewer than three tokens are present (parsed[0] always
exists since the prepended marker contributes a token). -/
def Connection.parse (info : String) : Except String Connection :=
  match tokenize info with
  | p0 :: p1 :: p2 :: rest =>
    let qr := findQR ((p0 :: p1 :: p2 :: rest).reverse) none
    .ok { in_use := p0 = ['*', '*'], bssid := String.mk p1, ssid := String.mk p2,
          quality := qr.1, rate := qr.2, latency := none }
  | _ => .error "IndexError"

/-- Decimal rendering of a natural number (fuelled so that it computes by
structural recursion; the fuel n + 1 always suffices): the digit characters
of the base-10 representation, most significant first, with 0 printed as
the single digit 0 — exactly what the Python f-string prints for an int. -/
def natToCharsCore : Nat → Nat → List Char → List Char
  | 0, _, acc => acc
  | fuel + 1, n, acc =>
    if n < 10 then Nat.digitChar n :: acc
    else natToCharsCore fuel (n / 10) (Nat.digitChar (n % 10) :: acc)

/-- Decimal rendering of a natural number, most significant digit first. -/
def natToChars (n : Nat) : List Char :=
  natToCharsCore (n + 1) n []

/-- Python prints None for an absent int field inside an f-string. -/
def optNatChars : Option Nat → List Char
  | none => "None".data
  | some n => natToChars n

/-- Connection.__repr__: an optional marker, then bssid, ssid, rate,
the literal Mbit/s, quality, and a latency suffix only when a latency is
present (the latency value itself is rendered as its rational literal;
no claim depends on that text). -/
def Connection.render (c : Connection) : String :=
  String.mk <|
    (if c.in_use then "* ".data else []) ++
    c.bssid.data ++ " ".data ++ c.ssid.data ++ " ".data ++
    optNatChars c.rate ++ " Mbit/s ".data ++ optNatChars c.quality ++
    (match c.latency with
     | none => []
     | some l => " ".data ++ (toString l.num).data ++ "/".data ++
         (toString l.den).data ++ "ms".data)

/-- Connection.get_list: splits the scan output on newlines, drops the
header line, skips empty lines, and parses each remaining line; a parse
exception aborts the whole batch. -/
def get_list (scan_output : String) : Except String (List Connection) :=
  ((((splitOnChar '\n' scan_output.data).map String.mk).drop 1).filter
    (· ≠ "")).mapM Connection.parse

def QUALITY_PANELTY : Nat := 10

/-- Tag for the Python TypeError raised when the latency gate compares a
float candidate latency against a None base latency. -/
def latencyTypeError : String := "TypeError: float-gt-NoneType"

/-- Tag for the Python TypeError raised when the quality or rate gate does
arithmetic or comparison with a None field. -/
def fieldTypeError : String := "TypeError: NoneType-int"

/-- Quality and rate gates of Connection.calculate_score, reached when the
latency gate did not fire: reject when quality + QUALITY_PANELTY does not
exceed the base quality, then reject when the rate is below the base rate,
otherwise accept with score quality - base quality. -/
def scoreQualityRate (self base : Connection) : Except String (Bool × Int) :=
  match self.quality, base.quality with
  | some sq, some bq =>
    if sq + QUALITY_PANELTY ≤ bq then .ok (false, 0)
    else
      match self.rate, base.rate with
      | some sr, some br =>
        if sr < br then .ok (false, 0)
        else .ok (true, (sq : Int) - (bq : Int))
      | _, _ => .error fieldTypeError
  | _, _ => .error fieldTypeError

/-- Connection.calculate_score: the latency gate fires only when the
candidate has a latency; comparing it against an absent base latency is the
Python TypeError; otherwise a strictly larger candidate latency rejects,
and the remaining gates run. -/
def calculate_score (self base : Connection) : Except String (Bool × Int) :=
  match self.latency, base.latency with
  | some _, none => .error latencyTypeError
  | some l, some bl =>
    if l > bl then .ok (false, 0) else scoreQualityRate self base
  | none, _ => scoreQualityRate self base

def PING_SECS : Nat := 4

/-- The latency value computed by Connection._calculate_latency from the
slash-separated ping statistics (min/avg/max/mdev, modelled as rationals):
average plus deviation when all four fields parse, otherwise the punitive
sentinel 2 * PING_SECS * 1000. -/
def probeValue (pingStats : List ℚ) : ℚ :=
  match pingStats with
  | [_, avg, _, mdev] => avg + mdev
  | _ => (2 * PING_SECS * 1000 : ℚ)

/-- The smoothing step of Connection._calculate_latency: a first
measurement is stored directly, later ones are averaged with the stored
value. -/
def calcLatency (old : Option ℚ) (pingStats : List ℚ) : ℚ :=
  match old with
  | none => probeValue pingStats
  | some prev => (prev + probeValue pingStats) / 2

/-- ConnectionDatabase state: the bssid-keyed dict as an association list
in insertion order, and the learned target ssid. -/
structure ConnectionDatabase where
  bssids : List (String × Connection)
  ssid : Option String
deriving DecidableEq, Repr

/-- Python dict lookup. -/
def lookupBssid : List (String × Connection) → String → Option Connection
  | [], _ => none
  | (k, v) :: rest, b => if k = b then some v else lookupBssid rest b

/-- Python dict assignment: replace in place when the key exists, append
otherwise. -/
def setBssid : List (String × Connection) → String → Connection →
    List (String × Connection)
  | [], b, c => [(b, c)]
  | (k, v) :: rest, b, c =>
    if k = b then (b, c) :: rest else (k, v) :: setBssid rest b c

/-- Python truthiness of the optional ssid: None and the empty string are
falsy. -/
def ssidFalsy : Option String → Bool
  | none => true
  | some s => s = ""

/-- ConnectionDatabase._fetch_connection: learn the ssid when unset (in the
Python truthiness sense), merge the observation into the dict by bssid —
an existing entry gets the new quality, a new bssid inserts the
observation — overwrite in_use, and probe the latency of the entry exactly
when it is in use; the probe sees the pingStats argument. Returns the new
state and the fetched entry (which the dict also holds). -/
def fetch_connection (db : ConnectionDatabase) (info : Connection)
    (pingStats : List ℚ) : ConnectionDatabase × Connection :=
  let ssidNew := if ssidFalsy db.ssid then some info.ssid else db.ssid
  let fetched0 :=
    match lookupBssid db.bssids info.bssid with
    | some f => { f with quality := info.quality }
    | none => info
  let fetched1 := { fetched0 with in_use := info.in_use }
  let fetched2 :=
    if fetched1.in_use then
      { fetched1 with latency := some (calcLatency fetched1.latency pingStats) }
    else fetched1
  ({ bssids := setBssid db.bssids info.bssid fetched2, ssid := ssidNew },
   fetched2)

/-- One whole refresh: merge a batch of observations (each with the ping
statistics its probe would see) left to right, as update_connection feeds
scan results through _fetch_connection. -/
def refresh (db : ConnectionDatabase) :
    List (Connection × List ℚ) → ConnectionDatabase
  | [] => db
  | (info, stats) :: rest => refresh (fetch_connection db info stats).1 rest

/-- Python string comparison, strict: lexicographic on the character code
points, a strict prefix preceding its extensions. -/
def charListLt : List Char → List Char → Bool
  | _, [] => false
  | [], _ :: _ => true
  | a :: as, b :: bs =>
    if a < b then true else if b < a then false else charListLt as bs

/-- Python string order, non-strict: a is at most b when b is not strictly
below a. -/
def strLe (a b : String) : Prop := charListLt b.data a.data = false

instance (s t : String) : Decidable (strLe s t) :=
  inferInstanceAs (Decidable (charListLt t.data s.data = false))

theorem charListLt_asymm :
    ∀ a b : List Char, charListLt a b = true → charListLt b a = false
  | _, [], h => by simp [charListLt] at h
  | [], _ :: _, _ => by simp [charListLt]
  | a :: as, b :: bs, h => by
    simp only [charListLt] at h ⊢
    rcases lt_trichotomy a b with hab | hab | hab
    · simp [hab, not_lt_of_gt hab]
    · subst hab
      simp only [lt_irrefl, if_false] at h ⊢
      exact charListLt_asymm as bs h
    · simp [hab, not_lt_of_gt hab] at h

theorem charListLt_total_not :
    ∀ a b : List Char, charListLt a b = false → charListLt b a = false →
      a = b
  | [], [], _, _ => rfl
  | [], _ :: _, h, _ => by simp [charListLt] at h
  | _ :: _, [], _, h => by simp [charListLt] at h
  | a :: as, b :: bs, h1, h2 => by
    simp only [charListLt] at h1 h2
    rcases lt_trichotomy a b with hab | hab | hab
    · simp [hab] at h1
    · subst hab
      simp only [lt_irrefl, if_false] at h1 h2
      rw [charListLt_total_not as bs h1 h2]
    · simp [hab] at h2

theorem charListLt_trans :
    ∀ a b c : List Char, charListLt a b = true → charListLt b c = true →
      charListLt a c = true
  | _, [], _, h, _ => by simp [charListLt] at h
  | _, _ :: _, [], _, h => by simp [charListLt] at h
  | [], _ :: _, _ :: _, _, _ => by simp [charListLt]
  | a :: as, b :: bs, c :: cs, h1, h2 => by
    simp only [charListLt] at h1 h2 ⊢
    rcases lt_trichotomy a b with hab | hab | hab <;>
      rcases lt_trichotomy b c with hbc | hbc | hbc
    · simp [hab.trans hbc, not_lt_of_gt (hab.trans hbc)]
    · subst hbc; simp [hab, not_lt_of_gt hab]
    · simp [hbc, not_lt_of_gt hbc] at h2
    · subst hab; simp [hbc, not_lt_of_gt hbc]
    · subst hab; subst hbc
      simp only [lt_irrefl, if_false] at h1 h2 ⊢
      exact charListLt_trans as bs cs h1 h2
    · subst hab; simp [hbc, not_lt_of_gt hbc] at h2
    · simp [hab, not_lt_of_gt hab] at h1
    · simp [hab, not_lt_of_gt hab] at h1
    · simp [hab, not_lt_of_gt hab] at h1

theorem strLe_total (a b : String) : strLe a b ∨ strLe b a := by
  unfold strLe
  cases h : charListLt b.data a.data
  · exact Or.inl rfl
  · exact Or.inr (charListLt_asymm _ _ h)

theorem strLe_trans {a b c : String} (h1 : strLe a b) (h2 : strLe b c) :
    strLe a c := by
  unfold strLe at *
  cases h : charListLt c.data a.data
  · rfl
  · exfalso
    cases hab : charListLt a.data b.data
    · have hba := charListLt_total_not _ _ hab h1
      rw [hba] at h
      simp [h2] at h
    · cases hbc : charListLt b.data c.data
      · have hcb := charListLt_total_not _ _ hbc h2
        rw [← hcb] at h
        simp [h1] at h
      · have hac := charListLt_trans _ _ _ hab hbc
        have hca := charListLt_asymm _ _ hac
        simp [hca] at h

/-- The sort key order used by update_connection on accepted
(candidate, score) pairs: ascending in (-score, bssid), the bssid compared
as a Python string. -/
def scoreKeyLE (a b : Connection × Int) : Prop :=
  -a.2 < -b.2 ∨ (-a.2 = -b.2 ∧ strLe a.1.bssid b.1.bssid)

instance : DecidableRel scoreKeyLE := fun a b =>
  inferInstanceAs
    (Decidable (-a.2 < -b.2 ∨ (-a.2 = -b.2 ∧ strLe a.1.bssid b.1.bssid)))

instance : IsTotal (Connection × Int) scoreKeyLE where
  total a b := by
    unfold scoreKeyLE
    rcases lt_trichotomy (-a.2) (-b.2) with h | h | h
    · exact Or.inl (Or.inl h)
    · rcases strLe_total a.1.bssid b.1.bssid with hb | hb
      · exact Or.inl (Or.inr ⟨h, hb⟩)
      · exact Or.inr (Or.inr ⟨h.symm, hb⟩)
    · exact Or.inr (Or.inl h)

instance : IsTrans (Connection × Int) scoreKeyLE where
  trans a b c hab hbc := by
    unfold scoreKeyLE at *
    rcases hab with h1 | ⟨h1, h1b⟩ <;> rcases hbc with h2 | ⟨h2, h2b⟩
    · exact Or.inl (h1.trans h2)
    · exact Or.inl (h2 ▸ h1)
    · exact Or.inl (h1 ▸ h2)
    · exact Or.inr ⟨h1.trans h2, strLe_trans h1b h2b⟩

/-- The selection step of update_connection: sort the accepted
(candidate, score) pairs by the key (-score, bssid) ascending and take the
first, or no winner when the list is empty. -/
def selectWinner (accepted : List (Connection × Int)) : Option Connection :=
  (List.insertionSort scoreKeyLE accepted).head?.map Prod.fst

/-! Lemmas about the backwards quality/rate scan. -/

theorem findQR_some (ts : List (List Char)) (q0 : Nat) :
    findQR ts (some q0) =
      (some q0, ((ts.filter isnumeric).head?).map charsToNat) := by
  induction ts with
  | nil => rfl
  | cons t rest ih =>
    simp only [findQR]
    cases h : isnumeric t
    · simp [h, ih]
    · simp [List.filter_cons, h]

theorem findQR_none (ts : List (List Char)) :
    findQR ts none =
      (((ts.filter isnumeric).head?).map charsToNat,
       (((ts.filter isnumeric).drop 1).head?).map charsToNat) := by
  induction ts with
  | nil => rfl
  | cons t rest ih =>
    simp only [findQR]
    cases h : isnumeric t
    · simp [h, ih]
    · simp [List.filter_cons, h, findQR_some]

/-! Lemmas about splitting on a separator. -/

theorem splitOnChar_ne_nil (sep : Char) :
    ∀ l : List Char, splitOnChar sep l ≠ []
  | [] => by simp [splitOnChar]
  | c :: cs => by
    cases h : splitOnChar sep cs with
    | nil => exact absurd h (splitOnChar_ne_nil sep cs)
    | cons g gs =>
      simp only [splitOnChar, h]
      split <;> simp

theorem splitOnChar_sep_cons (sep : Char) (rest : List Char) :
    splitOnChar sep (sep :: rest) = [] :: splitOnChar sep rest := by
  cases h : splitOnChar sep rest with
  | nil => exact absurd h (splitOnChar_ne_nil sep rest)
  | cons g gs => simp [splitOnChar, h]

theorem splitOnChar_token_append (sep : Char) :
    ∀ t rest : List Char, (∀ c ∈ t, c ≠ sep) →
      splitOnChar sep (t ++ sep :: rest) = t :: splitOnChar sep rest
  | [], rest, _ => by
    simpa using splitOnChar_sep_cons sep rest
  | c :: t, rest, h => by
    have hc : c ≠ sep := h c (by simp)
    have ih := splitOnChar_token_append sep t rest
      (fun x hx => h x (by simp [hx]))
    simp only [List.cons_append, splitOnChar, List.append_eq, ih]
    simp [hc]

theorem splitOnChar_token_last (sep : Char) :
    ∀ t : List Char, (∀ c ∈ t, c ≠ sep) → splitOnChar sep t = [t]
  | [], _ => rfl
  | c :: t, h => by
    have hc : c ≠ sep := h c (by simp)
    have ih := splitOnChar_token_last sep t (fun x hx => h x (by simp [hx]))
    simp only [splitOnChar, ih]
    simp [hc]

/-! Lemmas about the decimal printer. -/

theorem digitChar_isDigit {d : Nat} (h : d < 10) :
    (Nat.digitChar d).isDigit = true := by
  interval_cases d <;> rfl

theorem digitChar_val {d : Nat} (h : d < 10) :
    (Nat.digitChar d).toNat - Char.toNat (Char.ofNat 48) = d := by
  interval_cases d <;> rfl

theorem natToCharsCore_spec :
    ∀ fuel n acc, n < fuel →
      ∃ pre, natToCharsCore fuel n acc = pre ++ acc ∧ pre ≠ [] ∧
        ∀ c ∈ pre, c.isDigit = true := by
  intro fuel
  induction fuel with
  | zero => intro n acc h; omega
  | succ f ih =>
    intro n acc h
    by_cases h10 : n < 10
    · exact ⟨[Nat.digitChar n], by simp [natToCharsCore, h10],
        by simp, by simp [digitChar_isDigit h10]⟩
    · have hdiv : n / 10 < n := Nat.div_lt_self (by omega) (by omega)
      obtain ⟨pre, hpre, hne, hdig⟩ :=
        ih (n / 10) (Nat.digitChar (n % 10) :: acc) (by omega)
      refine ⟨pre ++ [Nat.digitChar (n % 10)], ?_, by simp, ?_⟩
      · simp only [natToCharsCore, if_neg h10, hpre, List.append_assoc,
          List.cons_append, List.nil_append]
      · intro c hc
        rcases List.mem_append.mp hc with hc | hc
        · exact hdig c hc
        · simp only [List.mem_singleton] at hc
          exact hc ▸ digitChar_isDigit (Nat.mod_lt n (by omega))

theorem charsFold_core :
    ∀ fuel n a acc, n < fuel →
      List.foldl (fun m c => m * 10 + (c.toNat - Char.toNat (Char.ofNat 48))) a
          (natToCharsCore fuel n acc) =
        List.foldl (fun m c => m * 10 + (c.toNat - Char.toNat (Char.ofNat 48)))
          (a * 10 ^ (Nat.log 10 n + 1) + n) acc := by
  intro fuel
  induction fuel with
  | zero => intro n a acc h; omega
  | succ f ih =>
    intro n a acc h
    by_cases h10 : n < 10
    · have hlog : Nat.log 10 n = 0 :=
        Nat.log_eq_zero_iff.mpr (Or.inl h10)
      simp only [natToCharsCore, if_pos h10, List.foldl_cons, hlog,
        zero_add, pow_one, digitChar_val h10]
    · have hdiv : n / 10 < n := Nat.div_lt_self (by omega) (by omega)
      have hlogpos : 0 < Nat.log 10 n := Nat.log_pos (by omega) (by omega)
      have hlog : Nat.log 10 (n / 10) + 1 = Nat.log 10 n := by
        rw [Nat.log_div_base]; omega
      rw [natToCharsCore, if_neg h10,
        ih (n / 10) a (Nat.digitChar (n % 10) :: acc) (by omega),
        List.foldl_cons, digitChar_val (Nat.mod_lt n (by omega))]
      congr 1
      have hdm : n / 10 * 10 + n % 10 = n := by omega
      calc (a * 10 ^ (Nat.log 10 (n / 10) + 1) + n / 10) * 10 + n % 10
          = a * 10 ^ (Nat.log 10 (n / 10) + 1 + 1) +
              (n / 10 * 10 + n % 10) := by ring
        _ = a * 10 ^ (Nat.log 10 n + 1) + n := by rw [hdm, hlog]

theorem charsToNat_natToChars (n : Nat) : charsToNat (natToChars n) = n := by
  unfold charsToNat natToChars
  rw [charsFold_core (n + 1) n 0 [] (by omega)]
  simp

theorem natToChars_ne_nil (n : Nat) : natToChars n ≠ [] := by
  obtain ⟨pre, hpre, hne, -⟩ := natToCharsCore_spec (n + 1) n [] (by omega)
  unfold natToChars
  simp only [hpre, List.append_nil]
  exact hne

theorem natToChars_all_digits (n : Nat) :
    ∀ c ∈ natToChars n, c.isDigit = true := by
  obtain ⟨pre, hpre, -, hdig⟩ := natToCharsCore_spec (n + 1) n [] (by omega)
  unfold natToChars
  simp only [hpre, List.append_nil]
  exact hdig

theorem isnumeric_natToChars (n : Nat) : isnumeric (natToChars n) = true := by
  unfold isnumeric
  rw [Bool.and_eq_true, List.all_eq_true]
  refine ⟨?_, fun c hc => natToChars_all_digits n c hc⟩
  simp [List.isEmpty_iff, natToChars_ne_nil n]

theorem digit_ne_space {c : Char} (h : c.isDigit = true) : c ≠ ' ' := by
  intro he
  subst he
  simp [Char.isDigit] at h

theorem natToChars_no_space (n : Nat) : ∀ c ∈ natToChars n, c ≠ ' ' :=
  fun c hc => digit_ne_space (natToChars_all_digits n c hc)

/-! Lemmas about the bssid-keyed dict. -/

theorem lookupBssid_setBssid :
    ∀ (m : List (String × Connection)) (k : String) (v : Connection)
      (b : String),
      lookupBssid (setBssid m k v) b =
        if k = b then some v else lookupBssid m b
  | [], _, _, _ => rfl
  | (k', v') :: rest, k, v, b => by
    by_cases hk : k' = k
    · subst hk
      by_cases hb : k' = b <;> simp [setBssid, lookupBssid, hb]
    · have ih := lookupBssid_setBssid rest k v b
      by_cases hb : k' = b
      · subst hb
        have hkb : ¬ k = k' := fun h => hk h.symm
        simp [setBssid, lookupBssid, hk, hkb]
      · simp [setBssid, lookupBssid, hk, hb, ih]

theorem setBssid_keys :
    ∀ (m : List (String × Connection)) (k : String) (v : Connection),
      (setBssid m k v).map Prod.fst =
        if lookupBssid m k = none then m.map Prod.fst ++ [k]
        else m.map Prod.fst
  | [], k, v => by simp [setBssid, lookupBssid]
  | (k', v') :: rest, k, v => by
    by_cases hk : k' = k
    · subst hk; simp [setBssid, lookupBssid]
    · have ih := setBssid_keys rest k v
      by_cases hrest : lookupBssid rest k = none <;>
        simp [setBssid, lookupBssid, hk, ih, hrest]

theorem lookupBssid_eq_none_iff :
    ∀ (m : List (String × Connection)) (b : String),
      lookupBssid m b = none ↔ b ∉ m.map Prod.fst
  | [], b => by simp [lookupBssid]
  | (k', v') :: rest, b => by
    by_cases h : k' = b
    · subst h; simp [lookupBssid]
    · simp [lookupBssid, h, lookupBssid_eq_none_iff rest b, Ne.symm h]

/-! Step lemmas about one registry merge. -/

theorem fetch_bssids_eq (db : ConnectionDatabase) (info : Connection)
    (stats : List ℚ) :
    (fetch_connection db info stats).1.bssids =
      setBssid db.bssids info.bssid (fetch_connection db info stats).2 := by
  unfold fetch_connection
  rfl

theorem fetch_ssid_stable (db : ConnectionDatabase) (info : Connection)
    (stats : List ℚ) (s : String) (h : db.ssid = some s) (hne : s ≠ "") :
    (fetch_connection db info stats).1.ssid = some s := by
  unfold fetch_connection
  simp [h, ssidFalsy, hne]

theorem fetch_member_preserve (db : ConnectionDatabase) (info : Connection)
    (stats : List ℚ) (b : String) (h : lookupBssid db.bssids b ≠ none) :
    lookupBssid (fetch_connection db info stats).1.bssids b ≠ none := by
  rw [fetch_bssids_eq, lookupBssid_setBssid]
  split
  · simp
  · exact h

theorem fetch_keys_nodup (db : ConnectionDatabase) (info : Connection)
    (stats : List ℚ) (h : (db.bssids.map Prod.fst).Nodup) :
    ((fetch_connection db info stats).1.bssids.map Prod.fst).Nodup := by
  rw [fetch_bssids_eq, setBssid_keys]
  split
  · rename_i hnone
    have hnotmem := (lookupBssid_eq_none_iff db.bssids info.bssid).mp hnone
    simp [List.nodup_append, h, hnotmem]
  · exact h

/-! Fold versions over a whole refresh. -/

theorem refresh_ssid_stable :
    ∀ (obs : List (Connection × List ℚ)) (db : ConnectionDatabase)
      (s : String), db.ssid = some s → s ≠ "" →
      (refresh db obs).ssid = some s
  | [], _, _, h, _ => h
  | (info, stats) :: rest, db, s, h, hne =>
    refresh_ssid_stable rest _ s
      (fetch_ssid_stable db info stats s h hne) hne

theorem refresh_member_preserve :
    ∀ (obs : List (Connection × List ℚ)) (db : ConnectionDatabase)
      (b : String), lookupBssid db.bssids b ≠ none →
      lookupBssid (refresh db obs).bssids b ≠ none
  | [], _, _, h => h
  | (info, stats) :: rest, db, b, h =>
    refresh_member_preserve rest _ b
      (fetch_member_preserve db info stats b h)

theorem refresh_keys_nodup :
    ∀ (obs : List (Connection × List ℚ)) (db : ConnectionDatabase),
      (db.bssids.map Prod.fst).Nodup →
      ((refresh db obs).bssids.map Prod.fst).Nodup
  | [], _, h => h
  | (info, stats) :: rest, db, h =>
    refresh_keys_nodup rest _ (fetch_keys_nodup db info stats h)

/-! Selector lemmas. -/

theorem charListLt_irrefl : ∀ l : List Char, charListLt l l = false
  | [] => rfl
  | a :: as => by simp [charListLt, lt_irrefl, charListLt_irrefl as]

theorem strLe_refl (s : String) : strLe s s := charListLt_irrefl s.data

theorem selectWinner_min (l : List (Connection × Int)) (w : Connection)
    (h : selectWinner l = some w) :
    ∃ s, (w, s) ∈ l ∧
      ∀ p ∈ l, p.2 ≤ s ∧ (p.2 = s → strLe w.bssid p.1.bssid) := by
  unfold selectWinner at h
  cases hs : List.insertionSort scoreKeyLE l with
  | nil => rw [hs] at h; simp at h
  | cons hd tl =>
    rw [hs] at h
    simp only [List.head?_cons, Option.map_some] at h
    obtain rfl : hd.1 = w := by injection h
    refine ⟨hd.2, ?_, ?_⟩
    · have hmem : hd ∈ List.insertionSort scoreKeyLE l := by
        rw [hs]; exact List.mem_cons_self hd tl
      exact (List.perm_insertionSort scoreKeyLE l).mem_iff.mp hmem
    · intro p hp
      have hp' : p ∈ hd :: tl := by
        rw [← hs]
        exact (List.perm_insertionSort scoreKeyLE l).mem_iff.mpr hp
      rcases List.mem_cons.mp hp' with rfl | hptl
      · exact ⟨le_refl _, fun _ => strLe_refl _⟩
      · have hsorted := List.sorted_insertionSort scoreKeyLE l
        rw [hs] at hsorted
        have hrel : scoreKeyLE hd p := (List.sorted_cons.mp hsorted).1 p hptl
        rcases hrel with hlt | ⟨heq, hle⟩
        · have : p.2 < hd.2 := by omega
          exact ⟨le_of_lt this, fun he => absurd he (by omega)⟩
        · have : p.2 = hd.2 := by omega
          exact ⟨le_of_eq this, fun _ => hle⟩

/-! Inversion lemmas for the scorer. -/

theorem scoreQualityRate_ok_true (cand act : Connection) (s : Int)
    (h : scoreQualityRate cand act = .ok (true, s)) :
    ∃ cq aq cr ar, cand.quality = some cq ∧ act.quality = some aq ∧
      cand.rate = some cr ∧ act.rate = some ar ∧
      aq < cq + QUALITY_PANELTY ∧ ar ≤ cr ∧ s = (cq : Int) - aq := by
  unfold scoreQualityRate at h
  split at h
  · rename_i cq aq hcq haq
    split at h
    · simp at h
    · split at h
      · rename_i cr ar hcr har
        split at h
        · simp at h
        · rename_i hq hr
          refine ⟨cq, aq, cr, ar, hcq, haq, hcr, har, by omega, by omega, ?_⟩
          injection h with h'
          injection h' with _ h2
          exact h2.symm
      · simp at h
  · simp at h

theorem calculate_score_ok_true (cand act : Connection) (s : Int)
    (h : calculate_score cand act = .ok (true, s)) :
    ∃ cq aq cr ar, cand.quality = some cq ∧ act.quality = some aq ∧
      cand.rate = some cr ∧ act.rate = some ar ∧
      aq < cq + QUALITY_PANELTY ∧ ar ≤ cr ∧ s = (cq : Int) - aq := by
  unfold calculate_score at h
  split at h
  · simp at h
  · split at h
    · simp at h
    · exact scoreQualityRate_ok_true cand act s h
  · exact scoreQualityRate_ok_true cand act s h

theorem scoreQualityRate_accepts (cand act : Connection) (cq aq cr ar : Nat)
    (hq : cand.quality = some cq) (ha : act.quality = some aq)
    (hr : cand.rate = some cr) (har : act.rate = some ar)
    (h1 : aq < cq + QUALITY_PANELTY) (h2 : ar ≤ cr) :
    scoreQualityRate cand act = .ok (true, (cq : Int) - aq) := by
  unfold scoreQualityRate
  rw [hq, ha, hr, har]
  simp only []
  rw [if_neg (by omega), if_neg (by omega)]

theorem calculate_score_accepts (cand act : Connection) (cq aq cr ar : Nat)
    (hl : cand.latency = none)
    (hq : cand.quality = some cq) (ha : act.quality = some aq)
    (hr : cand.rate = some cr) (har : act.rate = some ar)
    (h1 : aq < cq + QUALITY_PANELTY) (h2 : ar ≤ cr) :
    calculate_score cand act = .ok (true, (cq : Int) - aq) := by
  unfold calculate_score
  rw [hl]
  simp only []
  exact scoreQualityRate_accepts cand act cq aq cr ar hq ha hr har h1 h2

theorem calculate_score_latency_none (cand act : Connection)
    (h : cand.latency = none) :
    calculate_score cand act = scoreQualityRate cand act := by
  unfold calculate_score
  rw [h]

theorem calculate_score_latency_le (cand act : Connection) (l bl : ℚ)
    (hc : cand.latency = some l) (ha : act.latency = some bl)
    (hgt : ¬ l > bl) :
    calculate_score cand act = scoreQualityRate cand act := by
  unfold calculate_score
  rw [hc, ha]
  show (if l > bl then (Except.ok (false, 0) : Except String (Bool × Int))
      else scoreQualityRate cand act) = scoreQualityRate cand act
  rw [if_neg hgt]

theorem calculate_score_latency_error (cand act : Connection) (l : ℚ)
    (hc : cand.latency = some l) (ha : act.latency = none) :
    calculate_score cand act = .error latencyTypeError := by
  unfold calculate_score
  rw [hc, ha]

theorem calculate_score_latency_reject (cand act : Connection) (l bl : ℚ)
    (hc : cand.latency = some l) (ha : act.latency = some bl)
    (hgt : l > bl) :
    calculate_score cand act = .ok (false, 0) := by
  unfold calculate_score
  rw [hc, ha]
  show (if l > bl then (Except.ok (false, 0) : Except String (Bool × Int))
      else scoreQualityRate cand act) = Except.ok (false, 0)
  rw [if_pos hgt]

theorem calculate_score_ok_pair (cand act : Connection) (res : Bool × Int)
    (h : calculate_score cand act = .ok res) :
    res = (false, 0) ∨ res.1 = true := by
  unfold calculate_score scoreQualityRate at h
  split at h
  · simp at h
  · split at h
    · simp at h; exact Or.inl h.symm
    · split at h
      · split at h
        · simp at h; exact Or.inl h.symm
        · split at h
          · split at h
            · simp at h; exact Or.inl h.symm
            · simp at h; exact Or.inr (h ▸ rfl)
          · simp at h
      · simp at h
  · split at h
    · split at h
      · simp at h; exact Or.inl h.symm
      · split at h
        · split at h
          · simp at h; exact Or.inl h.symm
          · simp at h; exact Or.inr (h ▸ rfl)
        · simp at h
    · simp at h

theorem scoreQualityRate_ne_latencyError (a b : Connection) :
    scoreQualityRate a b ≠ .error latencyTypeError := by
  unfold scoreQualityRate
  split
  · split
    · simp
    · split
      · split
        · simp
        · simp
      · simp [fieldTypeError, latencyTypeError]
  · simp [fieldTypeError, latencyTypeError]

theorem calculate_score_quality_reject (cand act : Connection) (cq aq : Nat)
    (hl : cand.latency = none)
    (hq : cand.quality = some cq) (ha : act.quality = some aq)
    (h1 : cq + QUALITY_PANELTY ≤ aq) :
    calculate_score cand act = .ok (false, 0) := by
  unfold calculate_score scoreQualityRate
  rw [hl, hq, ha]
  simp only []
  rw [if_pos (by omega)]

end OptimizeWifi

namespace OptimizeWifi

/-! Sample records used by the concrete witnesses and counterexamples. -/

/-- The active entry of the spec scenarios: quality 50, rate 100. -/
def activeAA : Connection :=
  { in_use := true, bssid := "AA", ssid := "home",
    quality := some 50, rate := some 100, latency := some 20 }

/-- The same active entry before any probe (no latency yet). -/
def entryAA : Connection :=
  { in_use := true, bssid := "AA", ssid := "home",
    quality := some 50, rate := some 100, latency := none }

/-- The accepted candidate of the spec scenario: quality 65, rate 100. -/
def candBB : Connection :=
  { in_use := false, bssid := "BB", ssid := "home",
    quality := some 65, rate := some 100, latency := none }

/-- The quality-gate scenario candidate: quality 58, rate 100. -/
def candCC : Connection :=
  { in_use := false, bssid := "CC", ssid := "home",
    quality := some 58, rate := some 100, latency := none }

/-- A candidate well below the active quality. -/
def candLow : Connection :=
  { in_use := false, bssid := "DD", ssid := "home",
    quality := some 40, rate := some 100, latency := none }

/-- A candidate on a slower link class. -/
def candSlow : Connection :=
  { in_use := false, bssid := "EE", ssid := "home",
    quality := some 99, rate := some 50, latency := none }

/-- Tie-break scenario candidates with equal quality and rate. -/
def tieAA : Connection :=
  { in_use := false, bssid := "AA", ssid := "home",
    quality := some 60, rate := some 100, latency := none }

def tieZZ : Connection :=
  { in_use := false, bssid := "ZZ", ssid := "home",
    quality := some 60, rate := some 100, latency := none }

/-- A registry holding the active entry under its bssid. -/
def dbHome : ConnectionDatabase :=
  { bssids := [("AA", entryAA)], ssid := some "home" }

/-- A later observation of the same bssid with new quality and rate. -/
def obsAA200 : Connection :=
  { in_use := false, bssid := "AA", ssid := "home",
    quality := some 70, rate := some 200, latency := none }

/-- An in-use observation of the active bssid. -/
def obsActive : Connection :=
  { in_use := true, bssid := "AA", ssid := "home",
    quality := some 55, rate := some 100, latency := none }

/-- A realistic active scan line and its parse. -/
def lineActive : String := "* AA home 130 Mbit/s 89"

def obsParsed : Connection :=
  { in_use := true, bssid := "AA", ssid := "home",
    quality := some 89, rate := some 130, latency := none }

/-- The same line for a non-active access point (blank marker column). -/
def lineInactive : String := "   AA home 130 Mbit/s 89"

def obsInactive : Connection :=
  { in_use := false, bssid := "AA", ssid := "home",
    quality := some 89, rate := some 130, latency := none }

end OptimizeWifi

namespace OptimizeWifi

/-- C1 counterexample: with active quality 50 and candidate quality 58
(equal rate 100, no candidate latency) the scorer ACCEPTS the candidate
with score 8 — the quality gate of the code passes 58 since
58 + QUALITY_PANELTY > 50, refuting the claimed strict threshold
candidate.quality > active.quality + QUALITY_PANELTY and the claimed
rejection in this scenario. -/
theorem c1_counterexample :
    calculate_score candCC activeAA = .ok (true, 8) ∧
    candCC.quality = some 58 ∧ activeAA.quality = some 50 := by
  exact ⟨by decide, rfl, rfl⟩

/-- C1 (amended): the quality gate accepts a candidate exactly when
candidate.quality + QUALITY_PANELTY strictly exceeds the active quality:
every accepted evaluation satisfies active.quality < candidate.quality +
QUALITY_PANELTY, and whenever candidate.quality + QUALITY_PANELTY ≤
active.quality (candidate latency absent) the evaluation rejects with
(false, 0); the boundary candidate.quality + QUALITY_PANELTY =
active.quality is rejected. -/
theorem c1_quality_gate :
    (∀ (cand act : Connection) (s : Int) (cq aq : Nat),
        cand.quality = some cq → act.quality = some aq →
        calculate_score cand act = .ok (true, s) →
        aq < cq + QUALITY_PANELTY) ∧
    (∀ (cand act : Connection) (cq aq : Nat),
        cand.latency = none → cand.quality = some cq →
        act.quality = some aq → cq + QUALITY_PANELTY ≤ aq →
        calculate_score cand act = .ok (false, 0)) := by
  constructor
  · intro cand act s cq aq hq ha h
    obtain ⟨cq', aq', cr, ar, h1, h2, h3, h4, h5, h6, h7⟩ :=
      calculate_score_ok_true cand act s h
    rw [hq] at h1
    rw [ha] at h2
    injection h1 with h1
    injection h2 with h2
    omega
  · intro cand act cq aq hl hq ha hle
    exact calculate_score_quality_reject cand act cq aq hl hq ha hle

/-- Witness for C1: instantiates the amended gate law at the scenario
records. -/
theorem c1_quality_gate_witness :
    ((50 : Nat) < 58 + QUALITY_PANELTY) ∧
    calculate_score candLow activeAA = .ok (false, 0) :=
  ⟨c1_quality_gate.1 candCC activeAA 8 58 50 (by decide) (by decide)
      (by decide),
   c1_quality_gate.2 candLow activeAA 40 50 (by decide) (by decide)
      (by decide) (by decide)⟩

/-- C2 counterexample: in the line with token sequence
130, Mbit/s, 89 the last purely-numeric token is 89, yet the parser
stores 89 in quality and the earlier numeric 130 in rate — the rate is
not the last numeric token, refuting the claimed assignment. -/
theorem c2_counterexample :
    Connection.parse lineActive = .ok obsParsed ∧
    obsParsed.rate = some 130 ∧ obsParsed.quality = some 89 ∧
    obsParsed.rate ≠ some 89 := by
  exact ⟨by decide, rfl, rfl, by decide⟩

/-- C2 (amended): scanning tokens from the end, the LAST purely-numeric
token becomes the quality and the nearest purely-numeric token before it
becomes the rate; non-numeric tokens in between are ignored. Stated via
the numeric-token subsequence of the reversed token list. -/
theorem c2_parse_numeric_fields (info : String) (c : Connection)
    (h : Connection.parse info = .ok c) :
    c.quality =
      (((tokenize info).reverse.filter isnumeric).head?).map charsToNat ∧
    c.rate =
      ((((tokenize info).reverse.filter isnumeric).drop 1).head?).map
        charsToNat := by
  unfold Connection.parse at h
  split at h
  · rename_i p0 p1 p2 rest heq
    simp only [findQR_none] at h
    injection h with h
    subst h
    rw [heq]
    exact ⟨rfl, rfl⟩
  · cases h

/-- Witness for C2: the field law evaluated on the realistic active scan
line. -/
theorem c2_parse_numeric_fields_witness :
    obsParsed.quality =
      (((tokenize lineActive).reverse.filter isnumeric).head?).map
        charsToNat ∧
    obsParsed.rate =
      ((((tokenize lineActive).reverse.filter isnumeric).drop 1).head?).map
        charsToNat :=
  c2_parse_numeric_fields lineActive obsParsed (by decide)

/-- C3 counterexample: merging a new observation of an already-known bssid
with rate 200 leaves the stored rate at its old value 100 — the merge does
NOT overwrite rate, refuting the claim. -/
theorem c3_counterexample :
    obsAA200.rate = some 200 ∧
    (fetch_connection dbHome obsAA200 []).2.rate = some 100 ∧
    lookupBssid (fetch_connection dbHome obsAA200 []).1.bssids "AA" =
      some (fetch_connection dbHome obsAA200 []).2 := by
  exact ⟨rfl, by decide, by decide⟩

/-- C3 (amended): merging an observation whose bssid already has an entry
overwrites the entry quality and in_use flag with the observed values but
leaves the entry rate unchanged (the rate keeps the value from the first
observation of that bssid). -/
theorem c3_merge_fields (db : ConnectionDatabase) (info : Connection)
    (stats : List ℚ) (f : Connection)
    (h : lookupBssid db.bssids info.bssid = some f) :
    ((fetch_connection db info stats).2).quality = info.quality ∧
    ((fetch_connection db info stats).2).in_use = info.in_use ∧
    ((fetch_connection db info stats).2).rate = f.rate := by
  unfold fetch_connection
  rw [h]
  cases hiu : info.in_use <;> simp [hiu]

/-- Witness for C3: the merge law at the concrete registry. -/
theorem c3_merge_fields_witness :
    ((fetch_connection dbHome obsAA200 []).2).quality = obsAA200.quality ∧
    ((fetch_connection dbHome obsAA200 []).2).in_use = obsAA200.in_use ∧
    ((fetch_connection dbHome obsAA200 []).2).rate = entryAA.rate :=
  c3_merge_fields dbHome obsAA200 [] entryAA (by decide)

/-- C4 counterexample: the non-blank malformed line x raises IndexError and
aborts the whole batch instead of being skipped, and a line with three
tokens but no numeric fields is NOT rejected — it parses with quality and
rate unset — refuting both halves of the claim. -/
theorem c4_counterexample :
    get_list "HDR\nx" = .error "IndexError" ∧
    Connection.parse "* AA home" =
      .ok { in_use := true, bssid := "AA", ssid := "home",
            quality := none, rate := none, latency := none } := by
  exact ⟨by decide, by decide⟩

/-- C4 (amended): a line with fewer than three tokens raises IndexError
(failing the whole batch when it occurs); a line with at least three tokens
always yields an observation — with quality or rate unset when fewer than
two numeric tokens are present — and a batch whose non-blank post-header
lines all have at least three tokens parses without error (blank lines are
skipped). -/
theorem c4_parse_errors :
    (∀ info : String, (tokenize info).length < 3 →
        Connection.parse info = .error "IndexError") ∧
    (∀ info : String, 3 ≤ (tokenize info).length →
        ∃ c, Connection.parse info = .ok c) ∧
    (∀ output : String,
        (∀ l ∈ (((splitOnChar '\n' output.data).map String.mk).drop 1).filter
            (· ≠ ""), 3 ≤ (tokenize l).length) →
        ∃ cs, get_list output = .ok cs) := by
  refine ⟨?_, ?_, ?_⟩
  · intro info h
    unfold Connection.parse
    rcases htk : tokenize info with _ | ⟨p0, _ | ⟨p1, _ | ⟨p2, rest⟩⟩⟩
    · rfl
    · rfl
    · rfl
    · rw [htk] at h; simp at h; omega
  · intro info h
    unfold Connection.parse
    rcases htk : tokenize info with _ | ⟨p0, _ | ⟨p1, _ | ⟨p2, rest⟩⟩⟩
    · rw [htk] at h; simp at h
    · rw [htk] at h; simp at h
    · rw [htk] at h; simp at h
    · exact ⟨_, rfl⟩
  · intro output h
    unfold get_list
    revert h
    generalize (((splitOnChar '\n' output.data).map String.mk).drop 1).filter
        (· ≠ "") = ls
    intro h
    induction ls with
    | nil => exact ⟨[], rfl⟩
    | cons l rest ih =>
      have hone : ∃ c, Connection.parse l = .ok c := by
        have h3 := h l (by simp)
        unfold Connection.parse
        rcases htk : tokenize l with _ | ⟨p0, _ | ⟨p1, _ | ⟨p2, r⟩⟩⟩
        · rw [htk] at h3; simp at h3
        · rw [htk] at h3; simp at h3
        · rw [htk] at h3; simp at h3
        · exact ⟨_, rfl⟩
      obtain ⟨c, hc⟩ := hone
      obtain ⟨cs, hcs⟩ := ih (fun x hx => h x (by simp [hx]))
      refine ⟨c :: cs, ?_⟩
      rw [List.mapM_cons, hc, hcs]
      rfl

/-- Witness for C4: the short line x fails, the realistic line parses, and
a well-formed batch parses whole. -/
theorem c4_parse_errors_witness :
    Connection.parse "x" = .error "IndexError" ∧
    (∃ c, Connection.parse lineActive = .ok c) ∧
    (∃ cs, get_list "HDR\n* AA home 130 Mbit/s 89" = .ok cs) :=
  ⟨c4_parse_errors.1 "x" (by decide),
   c4_parse_errors.2.1 lineActive (by decide),
   c4_parse_errors.2.2 "HDR\n* AA home 130 Mbit/s 89" (by decide)⟩

end OptimizeWifi

namespace OptimizeWifi

/-- C6: a candidate whose rate is below the active rate is never accepted —
every completed evaluation of such a candidate returns (false, 0)
whatever the quality and latency fields hold — and at the boundary a
candidate with rate equal to the active rate is accepted when the latency
and quality gates pass. -/
theorem c6_rate_gate :
    (∀ (cand act : Connection) (res : Bool × Int) (cr ar : Nat),
        calculate_score cand act = .ok res →
        cand.rate = some cr → act.rate = some ar → cr < ar →
        res = (false, 0)) ∧
    (∀ (cand act : Connection) (cq aq rr : Nat),
        cand.latency = none → cand.quality = some cq →
        act.quality = some aq → aq < cq + QUALITY_PANELTY →
        cand.rate = some rr → act.rate = some rr →
        calculate_score cand act = .ok (true, (cq : Int) - aq)) := by
  constructor
  · intro cand act res cr ar h hcr har hlt
    rcases calculate_score_ok_pair cand act res h with hres | htrue
    · exact hres
    · exfalso
      obtain ⟨b, s⟩ := res
      simp only at htrue
      subst htrue
      obtain ⟨cq, aq, cr', ar', h1, h2, h3, h4, h5, h6, h7⟩ :=
        calculate_score_ok_true cand act s h
      rw [hcr] at h3
      rw [har] at h4
      injection h3 with h3
      injection h4 with h4
      omega
  · intro cand act cq aq rr hl hq ha hgate hr har
    exact calculate_score_accepts cand act cq aq rr rr hl hq ha hr har
      hgate (le_refl rr)

/-- Witness for C6: a slower candidate is rejected and an equal-rate
candidate is accepted. -/
theorem c6_rate_gate_witness :
    (((false, 0) : Bool × Int) = (false, 0)) ∧
    calculate_score candBB activeAA = .ok (true, (65 : Int) - 50) :=
  ⟨c6_rate_gate.1 candSlow activeAA (false, 0) 50 100 (by decide)
      (by decide) (by decide) (by decide),
   c6_rate_gate.2 candBB activeAA 65 50 100 (by decide) (by decide)
      (by decide) (by decide) (by decide) (by decide)⟩

/-- C7: the scorer is monotonic in candidate quality — with rate and
latency held fixed, a candidate accepted at quality q is accepted at every
quality above q, with a strictly larger score. -/
theorem c7_quality_monotone (cand act : Connection) (q q' : Nat) (s : Int)
    (hacc : calculate_score { cand with quality := some q } act =
      .ok (true, s))
    (hlt : q < q') :
    ∃ s', calculate_score { cand with quality := some q' } act =
      .ok (true, s') ∧ s < s' := by
  obtain ⟨iu, bs, ss, qu, ra, la⟩ := cand
  obtain ⟨cq, aq, cr, ar, h1, h2, h3, h4, h5, h6, h7⟩ :=
    calculate_score_ok_true _ act s hacc
  simp only at h1 h3
  injection h1 with h1
  subst h1
  refine ⟨(q' : Int) - (aq : Int), ?_, by omega⟩
  have hgate : scoreQualityRate
      (Connection.mk iu bs ss (some q') ra la) act =
      .ok (true, (q' : Int) - (aq : Int)) :=
    scoreQualityRate_accepts _ act q' aq cr ar rfl h2 h3 h4 (by omega) h6
  cases la with
  | none =>
    rw [calculate_score_latency_none _ act rfl]
    exact hgate
  | some l =>
    cases hal : act.latency with
    | none =>
      rw [calculate_score_latency_error _ act l rfl hal] at hacc
      cases hacc
    | some bl =>
      by_cases hgt : l > bl
      · rw [calculate_score_latency_reject _ act l bl rfl hal hgt] at hacc
        simp at hacc
      · rw [calculate_score_latency_le _ act l bl rfl hal hgt]
        exact hgate

/-- Witness for C7: the quality-58 candidate is accepted with score 8, so
raising its quality to 65 keeps it accepted with a larger score. -/
theorem c7_quality_monotone_witness :
    ∃ s', calculate_score { candCC with quality := some 65 } activeAA =
      .ok (true, s') ∧ (8 : Int) < s' :=
  c7_quality_monotone candCC activeAA 58 65 8 (by decide) (by decide)

/-- C8: the selection step returns a candidate of maximal score among the
accepted pairs, breaking score ties towards the lexicographically smaller
bssid, and returns no winner on the empty accepted set. -/
theorem c8_selector :
    (∀ (accepted : List (Connection × Int)) (w : Connection),
        selectWinner accepted = some w →
        ∃ s, (w, s) ∈ accepted ∧
          ∀ p ∈ accepted, p.2 ≤ s ∧ (p.2 = s → strLe w.bssid p.1.bssid)) ∧
    selectWinner [] = none :=
  ⟨selectWinner_min, rfl⟩

/-- Witness for C8: two accepted candidates with equal score 10 and bssids
ZZ and AA — AA is selected and dominates. -/
theorem c8_selector_witness :
    selectWinner [(tieZZ, 10), (tieAA, 10)] = some tieAA ∧
    (∃ s : Int, (tieAA, s) ∈ ([(tieZZ, 10), (tieAA, 10)] :
        List (Connection × Int)) ∧
      ∀ p ∈ ([(tieZZ, 10), (tieAA, 10)] : List (Connection × Int)),
        p.2 ≤ s ∧ (p.2 = s → strLe tieAA.bssid p.1.bssid)) :=
  ⟨by decide, c8_selector.1 [(tieZZ, 10), (tieAA, 10)] tieAA (by decide)⟩

/-- C9: across any sequence of merges, a non-empty learned target ssid is
never changed, no entry is ever removed from the bssid-keyed map, and the
map keeps one entry per distinct bssid. -/
theorem c9_registry_invariants (db : ConnectionDatabase)
    (obs : List (Connection × List ℚ)) :
    (∀ s, db.ssid = some s → s ≠ "" → (refresh db obs).ssid = some s) ∧
    (∀ b, lookupBssid db.bssids b ≠ none →
      lookupBssid (refresh db obs).bssids b ≠ none) ∧
    ((db.bssids.map Prod.fst).Nodup →
      ((refresh db obs).bssids.map Prod.fst).Nodup) :=
  ⟨fun s h hne => refresh_ssid_stable obs db s h hne,
   fun b h => refresh_member_preserve obs db b h,
   fun h => refresh_keys_nodup obs db h⟩

/-- Witness for C9: a two-observation refresh on the concrete registry
keeps the ssid, keeps the AA entry, and keeps the keys distinct. -/
theorem c9_registry_invariants_witness :
    (refresh dbHome [(obsAA200, []), (candBB, [])]).ssid = some "home" ∧
    lookupBssid (refresh dbHome [(obsAA200, []), (candBB, [])]).bssids "AA" ≠
      none ∧
    ((refresh dbHome [(obsAA200, []), (candBB, [])]).bssids.map
      Prod.fst).Nodup :=
  ⟨(c9_registry_invariants dbHome [(obsAA200, []), (candBB, [])]).1 "home"
      (by decide) (by decide),
   (c9_registry_invariants dbHome [(obsAA200, []), (candBB, [])]).2.1 "AA"
      (by decide),
   (c9_registry_invariants dbHome [(obsAA200, []), (candBB, [])]).2.2
      (by decide)⟩

/-- C10 (implicit): merging an in-use observation always runs the latency
prober, so the entry handed to the scorer as base has a latency set, and
the latency gate of calculate_score can never hit its ill-typed branch
(comparing a candidate latency against an absent base latency) against
such a base. -/
theorem c10_active_latency (db : ConnectionDatabase) (info : Connection)
    (stats : List ℚ) (cand : Connection) (hin : info.in_use = true) :
    ((fetch_connection db info stats).2).latency ≠ none ∧
    calculate_score cand ((fetch_connection db info stats).2) ≠
      .error latencyTypeError := by
  have hlat : ((fetch_connection db info stats).2).latency ≠ none := by
    unfold fetch_connection
    simp [hin]
  refine ⟨hlat, ?_⟩
  cases hcl : cand.latency with
  | none =>
    rw [calculate_score_latency_none cand _ hcl]
    exact scoreQualityRate_ne_latencyError cand _
  | some l =>
    cases hbl : ((fetch_connection db info stats).2).latency with
    | none => exact absurd hbl hlat
    | some bl =>
      by_cases hgt : l > bl
      · rw [calculate_score_latency_reject cand _ l bl hcl hbl hgt]
        simp
      · rw [calculate_score_latency_le cand _ l bl hcl hbl hgt]
        exact scoreQualityRate_ne_latencyError cand _

/-- Witness for C10: the in-use observation merged into the concrete
registry yields a probed base entry that the scorer can always gate. -/
theorem c10_active_latency_witness :
    ((fetch_connection dbHome obsActive []).2).latency ≠ none ∧
    calculate_score candBB ((fetch_connection dbHome obsActive []).2) ≠
      .error latencyTypeError :=
  c10_active_latency dbHome obsActive [] candBB (by decide)

end OptimizeWifi

namespace OptimizeWifi

/-- C5 counterexample: a parsed non-active observation (in_use = false)
renders without any marker column, so re-parsing the rendered line shifts
the fields — the re-parsed bssid is the original ssid — refuting the
claimed round-trip for in_use = false observations. -/
theorem c5_counterexample :
    Connection.parse lineInactive = .ok obsInactive ∧
    Connection.parse (Connection.render obsInactive) =
      .ok { in_use := false, bssid := "home", ssid := "130",
            quality := some 89, rate := some 130, latency := none } ∧
    obsInactive.bssid = "AA" := by
  exact ⟨by decide, by decide, rfl⟩

/-- C5 (amended): for in_use = true observations — with no latency yet,
quality and rate present, and bssid and ssid non-empty and free of the
separator, as holds for every field parsed from a scan line — rendering
and re-parsing reproduces the whole record; for in_use = false the marker
column is lost and only in_use, quality and rate survive re-parsing (see
the counterexample). -/
theorem c5_roundtrip (c : Connection)
    (hin : c.in_use = true) (hlat : c.latency = none)
    (q r : Nat) (hq : c.quality = some q) (hr : c.rate = some r)
    (hbs : c.bssid.data ≠ []) (hbs2 : ∀ ch ∈ c.bssid.data, ch ≠ ' ')
    (hss : c.ssid.data ≠ []) (hss2 : ∀ ch ∈ c.ssid.data, ch ≠ ' ') :
    Connection.parse (Connection.render c) = .ok c := by
  obtain ⟨iu, bs, ss, qu, ra, la⟩ := c
  obtain ⟨bsd⟩ := bs
  obtain ⟨ssd⟩ := ss
  simp only at hin hlat hq hr hbs hbs2 hss hss2
  subst hin hlat hq hr
  have hdata : '*' :: (Connection.render
      (Connection.mk true (String.mk bsd) (String.mk ssd)
        (some q) (some r) none)).data
      = ['*', '*'] ++ ' ' :: (bsd ++ ' ' :: (ssd ++ ' ' ::
          (natToChars r ++ ' ' :: ("Mbit/s".data ++ ' ' :: natToChars q)))) := by
    show '*' :: ("* ".data ++ bsd ++ " ".data ++ ssd ++ " ".data ++
        natToChars r ++ " Mbit/s ".data ++ natToChars q ++ []) = _
    simp [List.append_assoc]
  have hsplit : splitOnChar ' ' ('*' :: (Connection.render
      (Connection.mk true (String.mk bsd) (String.mk ssd)
        (some q) (some r) none)).data)
      = [['*', '*'], bsd, ssd, natToChars r, "Mbit/s".data, natToChars q] := by
    rw [hdata]
    rw [splitOnChar_token_append ' ' ['*', '*'] _ (by decide)]
    rw [splitOnChar_token_append ' ' bsd _ hbs2]
    rw [splitOnChar_token_append ' ' ssd _ hss2]
    rw [splitOnChar_token_append ' ' (natToChars r) _ (natToChars_no_space r)]
    rw [splitOnChar_token_append ' ' ("Mbit/s".data) _ (by decide)]
    rw [splitOnChar_token_last ' ' (natToChars q) (natToChars_no_space q)]
  have htok : tokenize (Connection.render
      (Connection.mk true (String.mk bsd) (String.mk ssd)
        (some q) (some r) none))
      = [['*', '*'], bsd, ssd, natToChars r, "Mbit/s".data, natToChars q] := by
    unfold tokenize
    rw [hsplit, List.filter_eq_self]
    intro a ha
    simp only [List.mem_cons, List.not_mem_nil, or_false] at ha
    rcases ha with rfl | rfl | rfl | rfl | rfl | rfl
    · simp
    · simp [hbs]
    · simp [hss]
    · simp [natToChars_ne_nil r]
    · simp
    · simp [natToChars_ne_nil q]
  unfold Connection.parse
  rw [htok]
  have hmb : isnumeric ("Mbit/s".data) = false := rfl
  have hmb2 : isnumeric ['M', 'b', 'i', 't', '/', 's'] = false := rfl
  simp only [List.reverse_cons, List.reverse_nil, List.nil_append,
    List.cons_append, List.singleton_append, List.append_assoc,
    findQR_none, List.filter_cons, isnumeric_natToChars, hmb, hmb2,
    List.filter_nil, if_true, if_false, Bool.false_eq_true,
    List.head?_cons, List.drop_succ_cons,
    List.drop_zero, Option.map_some, charsToNat_natToChars, decide_True]
  simp [charsToNat_natToChars]

/-- Witness for C5: the round-trip law evaluated at the parsed active
observation. -/
theorem c5_roundtrip_witness :
    Connection.parse (Connection.render obsParsed) = .ok obsParsed :=
  c5_roundtrip obsParsed (by decide) (by decide) 89 130 (by decide)
    (by decide) (by decide) (by decide) (by decide) (by decide)

end OptimizeWifi
